import Mathlib

/-!
Verification of the sawt answer pipeline, a shallow embedding of
`packages/googlecloud/functions/getanswer/inquirer.py`.

The embedding models the Python string primitives the code relies on
(`str.split`, substring `in`, `os.path.basename`, `int`,
`datetime.strptime`/`strftime`) and then translates the functions of the module:
`convert_date_format`, `timestamp_to_seconds`, `process_responses_llm`
(with its inner `gen_responses` closure and its main loop), and the
retrieval fan-out of `get_indepth_response_from_query`.

Python exceptions are modelled with `Except String`; Python `None` with
`Option`; dict metadata with an optional-field structure.
-/

namespace Sawt

/-! ## Python string primitives -/

/-- Substring test, modelling the Python string operation `needle in haystack`. -/
def containsSub (needle : List Char) : List Char → Bool
  | [] => needle.isEmpty
  | c :: rest => needle.isPrefixOf (c :: rest) || containsSub needle rest

/-- Python `needle in haystack` at `String` level. -/
def pyIn (needle haystack : String) : Bool :=
  containsSub needle.data haystack.data

/-- Worker for Python `str.split(sep)`: scans left to right; on a separator
match emits the accumulated chunk and skips the remaining `sep.length - 1`
characters via the `skip` counter (structural recursion on the text). -/
def pysplitAux (sep : List Char) : List Char → Nat → List Char → List (List Char)
  | acc, _, [] => [acc.reverse]
  | acc, skip + 1, _ :: rest => pysplitAux sep acc skip rest
  | acc, 0, c :: rest =>
    if sep.isPrefixOf (c :: rest) then
      acc.reverse :: pysplitAux sep [] (sep.length - 1) rest
    else
      pysplitAux sep (c :: acc) 0 rest

/-- Python `s.split(sep)` for a non-empty separator (the code only splits on
`"\n\n"`, `"-"`, `":"`, `"/"`; Python raises on an empty separator, which is
never reached). -/
def pysplit (s sep : String) : List String :=
  if sep.data.isEmpty then [s]
  else (pysplitAux sep.data [] 0 s.data).map (fun l => ⟨l⟩)

/-- `os.path.basename`: the part of the path after the last `/`. -/
def basename (p : String) : String :=
  (pysplit p "/").getLastD ""

/-- Whitespace stripped by the Python `int(str)` conversion (ASCII subset). -/
def isPySpace (c : Char) : Bool :=
  c == ' ' || c == '\t' || c == '\n' || c == '\r' || c == '\x0b' || c == '\x0c'

/-- Digit run as accepted by the Python `int` conversion: digits with single underscores
strictly between digits. -/
def digitsUnd : List Char → Bool
  | [] => true
  | ['_'] => false
  | '_' :: c :: r => c.isDigit && digitsUnd r
  | c :: r => c.isDigit && digitsUnd r

/-- Value of a digit-and-underscore run. -/
def natOfDigitsUnd (l : List Char) : Nat :=
  l.foldl (fun a c => if c == '_' then a else a * 10 + (c.toNat - 48)) 0

/-- Python `int(s)` on a decimal string: strip whitespace, optional sign,
then a non-empty digit run (ASCII digits; unicode digits are out of scope).
`none` models the `ValueError` that `int` raises otherwise. -/
def pythonInt (s : String) : Option Int :=
  let l := (s.data.dropWhile isPySpace).reverse.dropWhile isPySpace |>.reverse
  match l with
  | '+' :: rest =>
    if rest != [] && digitsUnd rest then some (natOfDigitsUnd rest) else none
  | '-' :: rest =>
    if rest != [] && digitsUnd rest then some (-(natOfDigitsUnd rest : Int)) else none
  | _ =>
    if l != [] && digitsUnd l then some (natOfDigitsUnd l) else none

/-! ## `datetime.strptime` / `strftime` for the formats used by the code -/

/-- Gregorian leap-year test (as `datetime` uses). -/
def isLeap (y : Nat) : Bool :=
  y % 4 == 0 && (y % 100 != 0 || y % 400 == 0)

/-- Days in a month, as validated by the `datetime` constructor. -/
def daysInMonth (y m : Nat) : Nat :=
  if m == 2 then (if isLeap y then 29 else 28)
  else if m == 4 || m == 6 || m == 9 || m == 11 then 30
  else 31

/-- Plain ASCII digit-run value (no underscores), for `strptime` fields. -/
def natOfDigits (l : List Char) : Nat :=
  l.foldl (fun a c => a * 10 + (c.toNat - 48)) 0

/-- The `%m` field of `_strptime`: 1-2 digits, value 1..12. -/
def parseMonth (l : List Char) : Option Nat :=
  if l != [] && l.length ≤ 2 && l.all Char.isDigit then
    let v := natOfDigits l
    if 1 ≤ v && v ≤ 12 then some v else none
  else none

/-- The `%d` field of `_strptime`: 1-2 digits, value 1..31. -/
def parseDay (l : List Char) : Option Nat :=
  if l != [] && l.length ≤ 2 && l.all Char.isDigit then
    let v := natOfDigits l
    if 1 ≤ v && v ≤ 31 then some v else none
  else none

/-- The `%Y` field of `_strptime`: exactly 4 digits. -/
def parseYear (l : List Char) : Option Nat :=
  if l.length == 4 && l.all Char.isDigit then some (natOfDigits l) else none

/-- `datetime.strptime(s, "%m-%d-%Y")`, returning `(month, day, year)`.
Since neither `%m`, `%d` nor `%Y` can match a `-`, the pattern matches the
whole string exactly when it splits on `-` into three field matches; the
`datetime` constructor then validates the calendar date (year ≥ 1, day within
the month). `none` models the `ValueError`. -/
def strptime_mdY (s : String) : Option (Nat × Nat × Nat) :=
  match pysplit s "-" with
  | [ms, ds, ys] =>
    match parseMonth ms.data, parseDay ds.data, parseYear ys.data with
    | some m, some d, some y =>
      if 1 ≤ y && d ≤ daysInMonth y m then some (m, d, y) else none
    | _, _, _ => none
  | _ => none

/-- Two-digit zero pad, as `%m` and `%d` of `strftime` produce. -/
def pad2 (n : Nat) : String :=
  if n < 10 then "0" ++ toString n else toString n

/-- `date.strftime("%m/%d/%Y")` (`%Y` is unpadded on glibc; every year the
parser accepts prints as its decimal digits). -/
def strftime_mdY (m d y : Nat) : String :=
  pad2 m ++ "/" ++ pad2 d ++ "/" ++ toString y

/-! ## inquirer.py: date and timestamp conversion -/

/-- `convert_date_format` (inquirer.py lines 22-41) on string input (the
non-string branch at line 24 is outside this typed embedding). The second
`strptime` attempt at line 36 uses format `"%-m-%-d-%Y"`, whose `-` is a bad
directive: it raises `ValueError` on every input, so it never produces a
date and the except-branch returns the marker. -/
def convert_date_format (date_str : String) : String :=
  if pyIn "/" date_str then date_str
  else
    match strptime_mdY date_str with
    | some (m, d, y) => strftime_mdY m d y
    | none => "Invalid date format"

/-- `timestamp_to_seconds` (inquirer.py lines 44-61). `.error` models the
uncaught `ValueError`s: from `int` on a non-numeric part, and from the
explicit `raise` when the `:`-split has neither 2 nor 3 parts. -/
def timestamp_to_seconds (timestamp : String) : Except String (Option Int) :=
  if pyIn "timestamp not available" timestamp then
    .ok none
  else
    let start_time := (pysplit timestamp "-").headD ""
    match (pysplit start_time ":").mapM pythonInt with
    | none => .error "invalid literal for int() with base 10"
    | some [h, m, s] => .ok (some (h * 3600 + m * 60 + s))
    | some [h, m] => .ok (some (h * 3600 + m * 60))
    | some _ => .error ("Invalid timestamp format: " ++ timestamp)

/-! ## Data model -/

/-- The metadata dict of a retrieved document: each field is `some v` when the
key is present (values typed as strings; the claims only inspect key
presence and string fields). `doc.metadata.get(k, d)` becomes
`field.getD d`, and `doc.metadata.get(k)` becomes the field itself. -/
structure Doc where
  page_content : String := ""
  title : Option String := none
  source : Option String := none
  page_number : Option String := none
  publish_date : Option String := none
  timestamp : Option String := none
  url : Option String := none
deriving DecidableEq

/-- The ResponseCard built by `process_responses_llm` before
`json.dumps`: `responses` holds the `response` text of each section, and
each citation is its key-value pairs in insertion order. -/
structure Card where
  card_type : String
  responses : List String
  citations : List (List (String × String))
deriving DecidableEq

/-- `RESPONSE_TYPE_DEPTH`. Modelled from the spec: the constant lives in
`api.py`, which is not under src/; the spec calls it a fixed response-kind
tag and no claim depends on its exact value. -/
def RESPONSE_TYPE_DEPTH : String := "in_depth"

/-! ## process_responses_llm (inquirer.py lines 64-153) -/

/-- Line 70-72: `generated_titles`. -/
def generated_titles (docs : List Doc) : List String :=
  docs.map (fun doc => doc.title.getD (doc.source.getD ""))

/-- Line 73: `page_numbers` (plain `.get`, so entries may be `None`). -/
def page_numbers (docs : List Doc) : List (Option String) :=
  docs.map (fun doc => doc.page_number)

/-- Lines 74-76: `generated_sources`. -/
def generated_sources (docs : List Doc) : List String :=
  docs.map (fun doc => doc.source.getD "source not available")

/-- Lines 77-80: `publish_dates`. -/
def publish_dates (docs : List Doc) : List String :=
  docs.map (fun doc => convert_date_format (doc.publish_date.getD "date not available"))

/-- Lines 81-83: `timestamps`. -/
def timestamps (docs : List Doc) : List String :=
  docs.map (fun doc => doc.timestamp.getD "timestamp not available")

/-- Line 84: `urls`. -/
def urls (docs : List Doc) : List String :=
  docs.map (fun doc => doc.url.getD "url not available")

/-- Python truthiness of an optional string (`None` and `""` are falsy). -/
def optTruthy : Option String → Bool
  | some s => s != ""
  | none => false

/-- Lines 109-115: when both URL and timestamp are truthy, convert the
timestamp and append the `t=<seconds>s` query parameter (`&` if the URL
already has a `?`, else `?`); an exception from `timestamp_to_seconds`
propagates. -/
def augment_url (source_url source_timestamp : Option String) :
    Except String (Option String) :=
  if optTruthy source_url && optTruthy source_timestamp then
    match timestamp_to_seconds (source_timestamp.getD "") with
    | .error e => .error e
    | .ok none => .ok source_url
    | .ok (some t) =>
      let u := source_url.getD ""
      .ok (some (if pyIn "?" u then u ++ "&t=" ++ toString t ++ "s"
                 else u ++ "?t=" ++ toString t ++ "s"))
  else .ok source_url

/-- The inner closure `gen_responses(i)` (lines 86-131): every list access
is the bounds-checked `xs[i] if i < len(xs) else None`, modelled by
`List.get?`; the returned pair is `(section["response"], citation)` with the
citation keys in insertion order Title, Published, URL, Video timestamp,
Name, Page Number, each added only when the section field is not `None`. -/
def gen_responses (paras : List String) (docs : List Doc) (i : Nat) :
    Except String (Option String × List (String × String)) :=
  let response := paras.get? i
  let source_title := (generated_titles docs).get? i
  let source_name := ((generated_sources docs).get? i).map basename
  let source_page_number := ((page_numbers docs).get? i).join
  let source_publish_date := (publish_dates docs).get? i
  let source_timestamp := (timestamps docs).get? i
  match augment_url ((urls docs).get? i) source_timestamp with
  | .error e => .error e
  | .ok source_url =>
    .ok (response,
      (match source_title with | some v => [("Title", v)] | none => []) ++
      (match source_publish_date with | some v => [("Published", v)] | none => []) ++
      (match source_url with | some v => [("URL", v)] | none => []) ++
      (match source_timestamp with | some v => [("Video timestamp", v)] | none => []) ++
      (match source_name with | some v => [("Name", v)] | none => []) ++
      (match source_page_number with | some v => [("Page Number", v)] | none => []))

/-- The main loop (lines 133-141) over a list of paragraph indices: a
truthy (non-empty) response is appended to `responses`, a non-empty
citation dict to `citations`. -/
def assembleIdx (paras : List String) (docs : List Doc) :
    List Nat → Except String (List String × List (List (String × String)))
  | [] => .ok ([], [])
  | i :: rest =>
    match gen_responses paras docs i with
    | .error e => .error e
    | .ok (response, citation) =>
      match assembleIdx paras docs rest with
      | .error e => .error e
      | .ok (rs, cs) =>
        .ok ((if optTruthy response then [response.getD ""] else []) ++ rs,
             (if citation.isEmpty then [] else [citation]) ++ cs)

/-- `process_responses_llm(responses_llm, docs)` (lines 64-153): split the
model output on double line breaks; with documents, run the loop over all
paragraph indices; without documents (`None` or `[]`, both falsy), keep only
the first paragraph and no citations. `json.dumps` is omitted: the card
itself is the result. -/
def process_responses_llm (responses_llm : String) (docs : List Doc) :
    Except String Card :=
  let generated_responses := pysplit responses_llm "\n\n"
  if docs.isEmpty then
    .ok { card_type := RESPONSE_TYPE_DEPTH,
          responses := match generated_responses with | [] => [] | p :: _ => [p],
          citations := [] }
  else
    match assembleIdx generated_responses docs (List.range generated_responses.length) with
    | .error e => .error e
    | .ok (rs, cs) =>
      .ok { card_type := RESPONSE_TYPE_DEPTH, responses := rs, citations := cs }

/-! ## get_indepth_response_from_query: retrieval fan-out (lines 209-222) -/

/-- Line 215: the five configured sources. -/
def retriever_names : List String := ["fc", "cj", "pdf", "pc", "news"]

/-- One `similarity_search_with_score` invocation. -/
structure SearchCall where
  store : String
  query : String
  topK : Nat
deriving DecidableEq

/-- The similarity-search calls issued by `get_indepth_response_from_query`
for a query and the `k` it was passed: one `RunnableLambda` per store, each
invoking `db.similarity_search_with_score(q, k=5)` (line 218) — the literal
`5`, not the `k` parameter of the function, which is never read. -/
def indepth_retrieval_calls (q : String) (k : Nat) : List SearchCall :=
  retriever_names.map (fun name => { store := name, query := q, topK := 5 })

/-! ## Concrete inputs used by the verification -/

/-- The citation produced for a document with no metadata at all: every
field except the page number defaults to a non-None sentinel string. -/
def sentinelCitation : List (String × String) :=
  [("Title", ""), ("Published", "Invalid date format"), ("URL", "url not available"),
   ("Video timestamp", "timestamp not available"), ("Name", "source not available")]

/-- The card produced for output `"a\n\nb\n\nc"` with two metadata-less
documents. -/
def C10wCard : Card :=
  { card_type := RESPONSE_TYPE_DEPTH, responses := ["a", "b", "c"],
    citations := [sentinelCitation, sentinelCitation] }

/-- A document whose metadata holds only a title. -/
def titleOnlyDoc (t : String) : Doc := { title := some t }

/-- The citation built for a title-only document: the other citation fields
come from the non-None sentinel defaults, so five keys appear. -/
def titleOnlyCitation (t : String) : List (String × String) :=
  [("Title", t), ("Published", "Invalid date format"), ("URL", "url not available"),
   ("Video timestamp", "timestamp not available"), ("Name", "source not available")]

/-! ## Supporting lemmas -/

theorem pysplitAux_ne_nil (sep : List Char) :
    ∀ (l : List Char) (acc : List Char) (skip : Nat),
      pysplitAux sep acc skip l ≠ [] := by
  intro l
  induction l with
  | nil => intro acc skip; cases skip <;> simp [pysplitAux]
  | cons c rest ih =>
    intro acc skip
    cases skip with
    | zero =>
      by_cases h : sep.isPrefixOf (c :: rest) = true
      · simp [pysplitAux, h]
      · simp only [pysplitAux, h, if_neg]
        simpa using ih (c :: acc) 0
    | succ n => simpa [pysplitAux] using ih acc n

theorem pysplit_ne_nil (s sep : String) : pysplit s sep ≠ [] := by
  unfold pysplit
  by_cases h : sep.data.isEmpty = true
  · simp [h]
  · simp only [h, if_neg, Bool.not_eq_true]
    simp [pysplitAux_ne_nil]

theorem get?_none_of_le {α : Type} : ∀ (l : List α) (i : Nat), l.length ≤ i → l.get? i = none := by
  intro l
  induction l with
  | nil => intro i _; simp
  | cons a t ih =>
    intro i hi
    cases i with
    | zero => simp at hi
    | succ n => simpa using ih n (by simpa using hi)

theorem get?_some_of_lt {α : Type} : ∀ (l : List α) (i : Nat), i < l.length → ∃ v, l.get? i = some v := by
  intro l
  induction l with
  | nil => intro i hi; simp at hi
  | cons a t ih =>
    intro i hi
    cases i with
    | zero => exact ⟨a, rfl⟩
    | succ n => simpa using ih n (by simpa using hi)

theorem getD_of_get?_some {α : Type} {l : List α} {i : Nat} {v : α} (d : α)
    (h : l.get? i = some v) : l.getD i d = v := by
  rw [List.getD_eq_getElem?_getD, ← List.get?_eq_getElem?, h]; rfl

@[simp] theorem generated_titles_length (docs : List Doc) :
    (generated_titles docs).length = docs.length := by simp [generated_titles]

@[simp] theorem page_numbers_length (docs : List Doc) :
    (page_numbers docs).length = docs.length := by simp [page_numbers]

@[simp] theorem generated_sources_length (docs : List Doc) :
    (generated_sources docs).length = docs.length := by simp [generated_sources]

@[simp] theorem publish_dates_length (docs : List Doc) :
    (publish_dates docs).length = docs.length := by simp [publish_dates]

@[simp] theorem timestamps_length (docs : List Doc) :
    (timestamps docs).length = docs.length := by simp [timestamps]

@[simp] theorem urls_length (docs : List Doc) :
    (urls docs).length = docs.length := by simp [urls]

theorem gen_responses_ge (paras : List String) (docs : List Doc) (i : Nat)
    (hi : docs.length ≤ i) :
    gen_responses paras docs i = .ok (paras.get? i, []) := by
  have h1 : (generated_titles docs).get? i = none :=
    get?_none_of_le _ _ (by simpa using hi)
  have h2 : (generated_sources docs).get? i = none :=
    get?_none_of_le _ _ (by simpa using hi)
  have h3 : (page_numbers docs).get? i = none :=
    get?_none_of_le _ _ (by simpa using hi)
  have h4 : (publish_dates docs).get? i = none :=
    get?_none_of_le _ _ (by simpa using hi)
  have h5 : (timestamps docs).get? i = none :=
    get?_none_of_le _ _ (by simpa using hi)
  have h6 : (urls docs).get? i = none :=
    get?_none_of_le _ _ (by simpa using hi)
  simp only [gen_responses]
  rw [h1, h2, h3, h4, h5, h6]
  simp [augment_url, optTruthy]

theorem gen_responses_ok_fst (paras : List String) (docs : List Doc) (i : Nat)
    {r : Option String} {c : List (String × String)}
    (h : gen_responses paras docs i = .ok (r, c)) : r = paras.get? i := by
  simp only [gen_responses] at h
  cases haug : augment_url ((urls docs).get? i) ((timestamps docs).get? i) with
  | error e => rw [haug] at h; exact absurd h (by simp)
  | ok u => rw [haug] at h; injection h with h'; injection h' with h1 _; exact h1.symm

theorem gen_responses_lt_name (paras : List String) (docs : List Doc) (i : Nat)
    (hi : i < docs.length)
    {r : Option String} {c : List (String × String)}
    (h : gen_responses paras docs i = .ok (r, c)) :
    "Name" ∈ c.map Prod.fst ∧ c ≠ [] := by
  obtain ⟨v, hv⟩ := get?_some_of_lt (generated_sources docs) i (by simpa using hi)
  simp only [gen_responses] at h
  rw [hv] at h
  cases haug : augment_url ((urls docs).get? i) ((timestamps docs).get? i) with
  | error e => rw [haug] at h; exact absurd h (by simp)
  | ok u =>
    rw [haug] at h
    injection h with h'
    injection h' with _ h2
    have hmem : "Name" ∈ c.map Prod.fst := by
      rw [← h2]
      simp
    refine ⟨hmem, ?_⟩
    intro hc
    rw [hc] at hmem
    simp at hmem

/-- Specification of the main loop on any index list whose entries are in
range of the paragraph list: the responses kept are exactly the non-empty
paragraphs at those indices, and one citation is kept per index that is in
range of the documents list, each containing the key `Name`. -/
theorem assembleIdx_spec (paras : List String) (docs : List Doc) :
    ∀ (idxs : List Nat) (rs : List String) (cs : List (List (String × String))),
      (∀ i ∈ idxs, i < paras.length) →
      assembleIdx paras docs idxs = .ok (rs, cs) →
      rs = idxs.filterMap (fun i =>
            if paras.getD i "" ≠ "" then some (paras.getD i "") else none)
      ∧ cs.length = (idxs.filter (fun i => decide (i < docs.length))).length
      ∧ ∀ c ∈ cs, "Name" ∈ c.map Prod.fst := by
  intro idxs
  induction idxs with
  | nil =>
    intro rs cs _ h
    simp only [assembleIdx] at h
    injection h with h'
    injection h' with hrs hcs
    subst hrs; subst hcs
    simp
  | cons i rest ih =>
    intro rs cs hiv h
    simp only [assembleIdx] at h
    cases hg : gen_responses paras docs i with
    | error e => rw [hg] at h; exact absurd h (by simp)
    | ok rc =>
      obtain ⟨r, c⟩ := rc
      rw [hg] at h
      cases ha : assembleIdx paras docs rest with
      | error e => rw [ha] at h; exact absurd h (by simp)
      | ok rscs =>
        obtain ⟨rs', cs'⟩ := rscs
        rw [ha] at h
        injection h with h'
        injection h' with hrs hcs
        have hilt : i < paras.length := hiv i (by simp)
        obtain ⟨hr1, hc1, hc2⟩ := ih rs' cs' (fun j hj => hiv j (by simp [hj])) ha
        obtain ⟨p, hp⟩ := get?_some_of_lt paras i hilt
        have hpD : paras[i]?.getD "" = p := by
          rw [← List.get?_eq_getElem?, hp]; rfl
        have hrval : r = some p := by
          rw [gen_responses_ok_fst paras docs i hg, hp]
        refine ⟨?_, ?_, ?_⟩
        · rw [← hrs, hr1, List.filterMap_cons]
          subst hrval
          by_cases hpe : p = ""
          · simp [optTruthy, hpD, hpe]
          · simp [optTruthy, hpD, hpe]
        · rw [← hcs, List.filter_cons]
          by_cases hid : i < docs.length
          · have hname := gen_responses_lt_name paras docs i hid hg
            have hce : c.isEmpty = false := by
              cases hcc : c with
              | nil => exact absurd hcc hname.2
              | cons x xs => rfl
            simp [hid, hce, hc1]
          · have hge := gen_responses_ge paras docs i (Nat.le_of_not_lt hid)
            rw [hge] at hg
            injection hg with hg'
            injection hg' with _ hcnil
            simp [hid, ← hcnil, List.isEmpty, hc1]
        · intro cit hcit
          rw [← hcs] at hcit
          rcases List.mem_append.mp hcit with hL | hR
          · by_cases hce : c.isEmpty = true
            · rw [if_pos hce] at hL
              simp at hL
            · rw [if_neg hce] at hL
              have hcitc : cit = c := by simpa using hL
              subst hcitc
              by_cases hid : i < docs.length
              · exact (gen_responses_lt_name paras docs i hid hg).1
              · have hge := gen_responses_ge paras docs i (Nat.le_of_not_lt hid)
                rw [hge] at hg
                injection hg with hg'
                injection hg' with _ hcnil
                rw [← hcnil] at hce
                simp [List.isEmpty] at hce
          · exact hc2 cit hR

theorem range_filter_lt_length (m : Nat) :
    ∀ n : Nat, ((List.range n).filter (fun i => decide (i < m))).length = min n m := by
  intro n
  induction n with
  | zero => simp
  | succ k ih =>
    rw [List.range_succ, List.filter_append, List.length_append, ih]
    by_cases h : k < m
    · simp [h]
      omega
    · simp [h]
      omega

theorem filterMap_range_nonempty (l : List String) :
    (List.range l.length).filterMap (fun i =>
        if l.getD i "" ≠ "" then some (l.getD i "") else none)
      = l.filter (fun p => p != "") := by
  induction l with
  | nil => simp
  | cons a t ih =>
    rw [List.length_cons, List.range_succ_eq_map, List.filterMap_cons,
        List.filterMap_map, List.filter_cons]
    have hcongr :
        List.filterMap ((fun i =>
            if (a :: t).getD i "" ≠ "" then some ((a :: t).getD i "") else none) ∘ Nat.succ)
          (List.range t.length)
        = List.filterMap (fun i =>
            if t.getD i "" ≠ "" then some (t.getD i "") else none) (List.range t.length) := by
      apply List.filterMap_congr
      intro i _
      rfl
    rw [hcongr, ih]
    by_cases ha : a = ""
    · simp [ha, List.getD]
    · simp [ha, List.getD]

/-- Unfolding of `process_responses_llm` in the with-documents branch. -/
theorem process_ok_elim (llm : String) (docs : List Doc) (card : Card)
    (hd : docs ≠ [])
    (h : process_responses_llm llm docs = .ok card) :
    ∃ rs cs,
      assembleIdx (pysplit llm "\n\n") docs
          (List.range (pysplit llm "\n\n").length) = .ok (rs, cs)
      ∧ card = { card_type := RESPONSE_TYPE_DEPTH, responses := rs, citations := cs } := by
  have hde : docs.isEmpty = false := by
    cases docs with
    | nil => exact absurd rfl hd
    | cons d t => rfl
  simp only [process_responses_llm, hde] at h
  cases ha : assembleIdx (pysplit llm "\n\n") docs
      (List.range (pysplit llm "\n\n").length) with
  | error e => rw [ha] at h; exact absurd h (by simp)
  | ok rscs =>
    obtain ⟨rs, cs⟩ := rscs
    rw [ha] at h
    injection h with h'
    exact ⟨rs, cs, rfl, h'.symm⟩

/-- C6: with no documents, the card has exactly one Section, the first
double-line-break-separated paragraph, and no citations. -/
theorem C6_no_docs_single_section (llm : String) :
    process_responses_llm llm [] =
      .ok { card_type := RESPONSE_TYPE_DEPTH,
            responses := [(pysplit llm "\n\n").headD ""], citations := [] } := by
  simp only [process_responses_llm, List.isEmpty_nil, if_pos]
  cases hp : pysplit llm "\n\n" with
  | nil => exact absurd hp (pysplit_ne_nil _ _)
  | cons p rest => simp

/-- C7: date conversion behaviour of `convert_date_format`. -/
theorem C7_convert_date_format :
    convert_date_format "3-4-2024" = "03/04/2024"
    ∧ (∀ s : String, pyIn "/" s = true → convert_date_format s = s)
    ∧ (∀ s : String, pyIn "/" s = false → strptime_mdY s = none →
        convert_date_format s = "Invalid date format")
    ∧ convert_date_format "not-a-date" = "Invalid date format" := by
  refine ⟨rfl, ?_, ?_, rfl⟩
  · intro s hs
    simp [convert_date_format, hs]
  · intro s hs hp
    simp [convert_date_format, hs, hp]

theorem C7_witness :
    (pyIn "/" "03/04/2024" = true ∧ convert_date_format "03/04/2024" = "03/04/2024")
    ∧ (pyIn "/" "not-a-date" = false ∧ strptime_mdY "not-a-date" = none
        ∧ convert_date_format "not-a-date" = "Invalid date format") :=
  ⟨⟨by decide, C7_convert_date_format.2.1 "03/04/2024" (by decide)⟩,
   ⟨by decide, by decide,
    C7_convert_date_format.2.2.1 "not-a-date" (by decide) (by decide)⟩⟩

/-- C8: timestamp conversion of `timestamp_to_seconds`. -/
theorem C8_timestamp_conversion :
    timestamp_to_seconds "1:02:03-1:05:00" = .ok (some 3723)
    ∧ timestamp_to_seconds "timestamp not available" = .ok none
    ∧ (∀ (ts : String) (h m s : Int),
        pyIn "timestamp not available" ts = false →
        (pysplit ((pysplit ts "-").headD "") ":").mapM pythonInt = some [h, m, s] →
        timestamp_to_seconds ts = .ok (some (h * 3600 + m * 60 + s)))
    ∧ (∀ (ts : String) (h m : Int),
        pyIn "timestamp not available" ts = false →
        (pysplit ((pysplit ts "-").headD "") ":").mapM pythonInt = some [h, m] →
        timestamp_to_seconds ts = .ok (some (h * 3600 + m * 60)))
    ∧ augment_url (some "http://x") (some "timestamp not available") =
        .ok (some "http://x") := by
  refine ⟨rfl, rfl, ?_, ?_, rfl⟩
  · intro ts h m s hin hmap
    simp only [timestamp_to_seconds, hin, Bool.false_eq_true, if_false, hmap]
  · intro ts h m hin hmap
    simp only [timestamp_to_seconds, hin, Bool.false_eq_true, if_false, hmap]

theorem C8_witness :
    (pyIn "timestamp not available" "1:02:03-1:05:00" = false
      ∧ (pysplit ((pysplit "1:02:03-1:05:00" "-").headD "") ":").mapM pythonInt =
          some [1, 2, 3]
      ∧ timestamp_to_seconds "1:02:03-1:05:00" = .ok (some (1 * 3600 + 2 * 60 + 3)))
    ∧ (pyIn "timestamp not available" "0:42" = false
      ∧ (pysplit ((pysplit "0:42" "-").headD "") ":").mapM pythonInt = some [0, 42]
      ∧ timestamp_to_seconds "0:42" = .ok (some (0 * 3600 + 42 * 60))) :=
  ⟨⟨by decide, by decide,
    C8_timestamp_conversion.2.2.1 "1:02:03-1:05:00" 1 2 3 (by decide) (by decide)⟩,
   ⟨by decide, by decide,
    C8_timestamp_conversion.2.2.2.1 "0:42" 0 42 (by decide) (by decide)⟩⟩

/-- C9: URL augmentation appends the `t=<seconds>s` parameter with `&` when
the URL already has a query string and `?` otherwise. -/
theorem C9_url_augmentation :
    (∀ (u ts : String) (t : Int), u ≠ "" → ts ≠ "" →
      timestamp_to_seconds ts = .ok (some t) →
      augment_url (some u) (some ts) =
        .ok (some (if pyIn "?" u then u ++ "&t=" ++ toString t ++ "s"
                   else u ++ "?t=" ++ toString t ++ "s")))
    ∧ augment_url (some "http://a") (some "0:00:42") = .ok (some "http://a?t=42s")
    ∧ augment_url (some "http://a?x=1") (some "0:00:42") =
        .ok (some "http://a?x=1&t=42s") := by
  refine ⟨?_, rfl, rfl⟩
  intro u ts t hu hts hc
  simp [augment_url, optTruthy, hu, hts, hc]

theorem C9_witness :
    (("http://a" : String) ≠ "" ∧ ("0:00:42" : String) ≠ ""
      ∧ timestamp_to_seconds "0:00:42" = .ok (some 42)
      ∧ augment_url (some "http://a") (some "0:00:42") =
          .ok (some (if pyIn "?" "http://a" then "http://a" ++ "&t=" ++ toString (42 : Int) ++ "s"
                     else "http://a" ++ "?t=" ++ toString (42 : Int) ++ "s")))
    ∧ (("http://a?x=1" : String) ≠ ""
      ∧ augment_url (some "http://a?x=1") (some "0:00:42") =
          .ok (some (if pyIn "?" "http://a?x=1" then "http://a?x=1" ++ "&t=" ++ toString (42 : Int) ++ "s"
                     else "http://a?x=1" ++ "?t=" ++ toString (42 : Int) ++ "s"))) :=
  ⟨⟨by decide, by decide, rfl,
    C9_url_augmentation.1 "http://a" "0:00:42" 42 (by decide) (by decide) rfl⟩,
   ⟨by decide,
    C9_url_augmentation.1 "http://a?x=1" "0:00:42" 42 (by decide) (by decide) rfl⟩⟩

/-- C4 counterexample: with k = 20 passed in, every issued call still uses
top-k 5, so the calls do not use the k of the caller. -/
theorem C4_cex :
    (indepth_retrieval_calls "transit" 20).map (fun c => c.topK) = [5, 5, 5, 5, 5]
    ∧ ((indepth_retrieval_calls "transit" 20).all (fun c => c.topK == 20)) = false :=
  ⟨rfl, rfl⟩

/-- C4 amended: one call per configured store with the same query, but the
top-k of every call is the hard-coded 5, independent of the k passed in. -/
theorem C4_amended_fixed_topk (q : String) (k k2 : Nat) :
    indepth_retrieval_calls q k = indepth_retrieval_calls q k2
    ∧ (indepth_retrieval_calls q k).map (fun c => c.store) = retriever_names
    ∧ (indepth_retrieval_calls q k).map (fun c => c.query) = List.replicate 5 q
    ∧ (indepth_retrieval_calls q k).map (fun c => c.topK) = [5, 5, 5, 5, 5] :=
  ⟨rfl, rfl, rfl, rfl⟩

/-- C2 counterexample: `timestamp_to_seconds` raises (an uncaught
`ValueError` from `int`) on a malformed timestamp string. -/
theorem C2_cex :
    timestamp_to_seconds "abc" = .error "invalid literal for int() with base 10" := rfl

/-- C2 amended: `convert_date_format` never raises — every string input
yields the input itself, the reformatted date, or a marker string — but
`timestamp_to_seconds` does raise on non-sentinel timestamps that are not
colon-separated integers (or have the wrong number of parts). -/
theorem C2_amended_parsing_leniency :
    (∀ s : String, convert_date_format s = s
        ∨ convert_date_format s = "Invalid date format"
        ∨ ∃ m d y, strptime_mdY s = some (m, d, y)
            ∧ convert_date_format s = strftime_mdY m d y)
    ∧ timestamp_to_seconds "abc" = .error "invalid literal for int() with base 10"
    ∧ timestamp_to_seconds "1:2:3:4" = .error "Invalid timestamp format: 1:2:3:4" := by
  refine ⟨?_, rfl, rfl⟩
  intro s
  by_cases hs : pyIn "/" s = true
  · exact Or.inl (by simp [convert_date_format, hs])
  · cases hp : strptime_mdY s with
    | none => exact Or.inr (Or.inl (by simp [convert_date_format, hs, hp]))
    | some mdy =>
      obtain ⟨m, d, y⟩ := mdy
      exact Or.inr (Or.inr ⟨m, d, y, rfl, by simp [convert_date_format, hs, hp]⟩)

/-- C1 counterexample: one document, two paragraphs — the excess paragraph
`"b"` (index 1, beyond the single document) still yields a Section. -/
theorem C1_cex :
    process_responses_llm "a\n\nb" [{}] =
      .ok { card_type := RESPONSE_TYPE_DEPTH, responses := ["a", "b"],
            citations := [sentinelCitation] }
    ∧ (pysplit "a\n\nb" "\n\n").length = 2
    ∧ [({} : Doc)].length = 1
    ∧ (pysplit "a\n\nb" "\n\n").getD 1 "" = "b" :=
  ⟨rfl, rfl, rfl, rfl⟩

/-- C1 amended: excess paragraphs are not dropped — the Sections are
exactly the non-empty paragraphs of the whole model output, including every
non-empty paragraph at an index at or beyond the documents list. -/
theorem C1_amended_excess_paragraphs_kept (llm : String) (docs : List Doc)
    (card : Card) (hd : docs ≠ [])
    (h : process_responses_llm llm docs = .ok card) :
    card.responses = (pysplit llm "\n\n").filter (fun p => p != "")
    ∧ ∀ i : Nat, docs.length ≤ i → i < (pysplit llm "\n\n").length →
        (pysplit llm "\n\n").getD i "" ≠ "" →
        (pysplit llm "\n\n").getD i "" ∈ card.responses := by
  obtain ⟨rs, cs, ha, hcard⟩ := process_ok_elim llm docs card hd h
  obtain ⟨hr, -, -⟩ :=
    assembleIdx_spec _ docs _ rs cs (fun i hi => List.mem_range.mp hi) ha
  subst hcard
  constructor
  · show rs = _
    rw [hr, filterMap_range_nonempty]
  · intro i hge hlt hne
    show _ ∈ rs
    rw [hr]
    exact List.mem_filterMap.mpr ⟨i, List.mem_range.mpr hlt, by rw [if_pos hne]⟩

theorem C1_witness :
    ([({} : Doc)] ≠ []
      ∧ process_responses_llm "a\n\nb" [{}] =
          .ok { card_type := RESPONSE_TYPE_DEPTH, responses := ["a", "b"],
                citations := [sentinelCitation] })
    ∧ (({ card_type := RESPONSE_TYPE_DEPTH, responses := ["a", "b"],
          citations := [sentinelCitation] } : Card).responses =
            (pysplit "a\n\nb" "\n\n").filter (fun p => p != "")
      ∧ ∀ i : Nat, [({} : Doc)].length ≤ i → i < (pysplit "a\n\nb" "\n\n").length →
          (pysplit "a\n\nb" "\n\n").getD i "" ≠ "" →
          (pysplit "a\n\nb" "\n\n").getD i "" ∈
            ({ card_type := RESPONSE_TYPE_DEPTH, responses := ["a", "b"],
               citations := [sentinelCitation] } : Card).responses) :=
  ⟨⟨by simp, rfl⟩,
   C1_amended_excess_paragraphs_kept "a\n\nb" [{}] _ (by simp) rfl⟩

/-- C5 counterexample: three documents and a model output that splits into
exactly two paragraphs, the second empty — only one Section results. -/
theorem C5_cex :
    process_responses_llm "a\n\n" [{}, {}, {}] =
      .ok { card_type := RESPONSE_TYPE_DEPTH, responses := ["a"],
            citations := [sentinelCitation, sentinelCitation] }
    ∧ pysplit "a\n\n" "\n\n" = ["a", ""]
    ∧ ¬ (["a"].length = 2) :=
  ⟨rfl, rfl, by decide⟩

/-- C5 amended: with 3 documents and a model output splitting into exactly
2 paragraphs, both non-empty, an assembly that completes without raising
has exactly 2 Sections and exactly 2 Citations (every per-field access is
bounds-checked, so no index is ever out of range). -/
theorem C5_amended_two_paragraphs (llm : String) (docs : List Doc)
    (p1 p2 : String) (card : Card)
    (hdl : docs.length = 3) (hsplit : pysplit llm "\n\n" = [p1, p2])
    (h1 : p1 ≠ "") (h2 : p2 ≠ "")
    (h : process_responses_llm llm docs = .ok card) :
    card.responses.length = 2 ∧ card.citations.length = 2 := by
  have hd : docs ≠ [] := by
    intro hnil
    rw [hnil] at hdl
    simp at hdl
  obtain ⟨rs, cs, ha, hcard⟩ := process_ok_elim llm docs card hd h
  rw [hsplit] at ha
  obtain ⟨hr, hc, -⟩ :=
    assembleIdx_spec [p1, p2] docs _ rs cs (fun i hi => List.mem_range.mp hi) ha
  subst hcard
  constructor
  · show rs.length = 2
    rw [hr]
    have hrange : List.range ([p1, p2] : List String).length = [0, 1] := rfl
    rw [hrange]
    simp [h1, h2, List.getD]
  · show cs.length = 2
    rw [hc, hdl]
    rfl

theorem C5_witness :
    (([({} : Doc), {}, {}]).length = 3
      ∧ pysplit "a\n\nb" "\n\n" = ["a", "b"]
      ∧ ("a" : String) ≠ "" ∧ ("b" : String) ≠ ""
      ∧ process_responses_llm "a\n\nb" [{}, {}, {}] =
          .ok { card_type := RESPONSE_TYPE_DEPTH, responses := ["a", "b"],
                citations := [sentinelCitation, sentinelCitation] })
    ∧ (({ card_type := RESPONSE_TYPE_DEPTH, responses := ["a", "b"],
          citations := [sentinelCitation, sentinelCitation] } : Card).responses.length = 2
      ∧ ({ card_type := RESPONSE_TYPE_DEPTH, responses := ["a", "b"],
           citations := [sentinelCitation, sentinelCitation] } : Card).citations.length = 2) :=
  ⟨⟨rfl, rfl, by decide, by decide, rfl⟩,
   C5_amended_two_paragraphs "a\n\nb" [{}, {}, {}] "a" "b" _ rfl rfl
     (by decide) (by decide) rfl⟩

/-- C10: with documents present, an assembly that completes emits exactly
min(#paragraphs, #documents) citations, each containing the key `Name`; the
citation count never exceeds the document count, and the Section count can
be smaller than the Citation count (empty paragraphs are skipped). -/
theorem C10_citations_invariant (llm : String) (docs : List Doc) (card : Card)
    (hd : docs ≠ []) (h : process_responses_llm llm docs = .ok card) :
    card.citations.length = min (pysplit llm "\n\n").length docs.length
    ∧ (∀ c ∈ card.citations, "Name" ∈ c.map Prod.fst)
    ∧ card.citations.length ≤ docs.length
    ∧ ∃ card0 : Card, process_responses_llm "" [{}] = .ok card0
        ∧ card0.responses.length < card0.citations.length := by
  obtain ⟨rs, cs, ha, hcard⟩ := process_ok_elim llm docs card hd h
  obtain ⟨-, hc, hname⟩ :=
    assembleIdx_spec _ docs _ rs cs (fun i hi => List.mem_range.mp hi) ha
  subst hcard
  refine ⟨?_, hname, ?_, ?_⟩
  · show cs.length = _
    rw [hc, range_filter_lt_length]
  · show cs.length ≤ _
    rw [hc, range_filter_lt_length]
    exact Nat.min_le_right _ _
  · exact ⟨{ card_type := RESPONSE_TYPE_DEPTH, responses := [],
             citations := [sentinelCitation] }, rfl, by decide⟩

theorem C10_witness :
    ([({} : Doc), {}] ≠ []
      ∧ process_responses_llm "a\n\nb\n\nc" [{}, {}] = .ok C10wCard)
    ∧ (C10wCard.citations.length =
          min (pysplit "a\n\nb\n\nc" "\n\n").length ([({} : Doc), {}]).length
      ∧ (∀ c ∈ C10wCard.citations, "Name" ∈ c.map Prod.fst)
      ∧ C10wCard.citations.length ≤ ([({} : Doc), {}]).length
      ∧ ∃ card0 : Card, process_responses_llm "" [{}] = .ok card0
          ∧ card0.responses.length < card0.citations.length) :=
  ⟨⟨by simp, rfl⟩,
   C10_citations_invariant "a\n\nb\n\nc" [{}, {}] C10wCard (by simp) rfl⟩

theorem gen_responses_titleOnly (t : String) (paras : List String) :
    gen_responses paras [titleOnlyDoc t] 0 =
      .ok (paras.get? 0, titleOnlyCitation t) := rfl

theorem assembleIdx_ge_docs (paras : List String) (docs : List Doc) :
    ∀ idxs : List Nat, (∀ i ∈ idxs, docs.length ≤ i) →
      ∃ rs, assembleIdx paras docs idxs = .ok (rs, []) := by
  intro idxs
  induction idxs with
  | nil => intro _; exact ⟨[], rfl⟩
  | cons i rest ih =>
    intro hiv
    obtain ⟨rs, hrs⟩ := ih (fun j hj => hiv j (by simp [hj]))
    have hg := gen_responses_ge paras docs i (hiv i (by simp))
    refine ⟨(if optTruthy (paras.get? i) then [(paras.get? i).getD ""] else []) ++ rs, ?_⟩
    simp only [assembleIdx, hg, hrs]
    simp [List.isEmpty]

/-- C3 counterexample: a title-only document yields a five-key citation,
not a single-key one. -/
theorem C3_cex :
    process_responses_llm "a" [titleOnlyDoc "T"] =
      .ok { card_type := RESPONSE_TYPE_DEPTH, responses := ["a"],
            citations := [titleOnlyCitation "T"] }
    ∧ (titleOnlyCitation "T").map Prod.fst =
        ["Title", "Published", "URL", "Video timestamp", "Name"]
    ∧ ¬ ((titleOnlyCitation "T").length = 1) :=
  ⟨rfl, rfl, by decide⟩

/-- C3 amended: for a single title-only document, the one citation of the card
has exactly the five keys Title, Published, URL, Video timestamp, Name (in
that order), the last four holding the sentinel strings; only Page Number
is omitted. -/
theorem C3_amended_sentinel_citation (t llm : String) (card : Card)
    (h : process_responses_llm llm [titleOnlyDoc t] = .ok card) :
    card.citations = [titleOnlyCitation t] := by
  obtain ⟨rs, cs, ha, hcard⟩ := process_ok_elim llm [titleOnlyDoc t] card (by simp) h
  subst hcard
  show cs = _
  have hnnil : pysplit llm "\n\n" ≠ [] := pysplit_ne_nil _ _
  obtain ⟨k, hk⟩ : ∃ k, (pysplit llm "\n\n").length = k + 1 := by
    cases hl : (pysplit llm "\n\n").length with
    | zero => exact absurd (List.length_eq_zero.mp hl) hnnil
    | succ k => exact ⟨k, rfl⟩
  rw [hk, List.range_succ_eq_map] at ha
  simp only [assembleIdx, gen_responses_titleOnly] at ha
  obtain ⟨rs', hrs'⟩ := assembleIdx_ge_docs (pysplit llm "\n\n") [titleOnlyDoc t]
      ((List.range k).map Nat.succ) (by
        intro i hi
        obtain ⟨j, -, hj⟩ := List.mem_map.mp hi
        rw [← hj]
        simp)
  rw [hrs'] at ha
  simp only [titleOnlyCitation, List.isEmpty] at ha
  injection ha with ha'
  injection ha' with _ hcs
  rw [← hcs]
  rfl

theorem C3_witness :
    process_responses_llm "a" [titleOnlyDoc "T"] =
      .ok { card_type := RESPONSE_TYPE_DEPTH, responses := ["a"],
            citations := [titleOnlyCitation "T"] }
    ∧ ({ card_type := RESPONSE_TYPE_DEPTH, responses := ["a"],
         citations := [titleOnlyCitation "T"] } : Card).citations =
        [titleOnlyCitation "T"] :=
  ⟨rfl, C3_amended_sentinel_citation "T" "a" _ rfl⟩

end Sawt
